import Mathlib

/-!
Verification of the winidjango repository: thin overrides that extend
dev-dependency lists and mappings supplied by an external rig framework,
plus an import-time settings bootstrap.

The parent implementations (`super()` calls) live in external libraries,
so each override is embedded as a function of the parent's result.
Python `dict` objects are embedded as association lists with unique keys
in insertion order; `d[k] = v` updates an existing key in place or
appends a fresh key at the end, and `dict(sorted(d.items()))` rebuilds
the dict with entries ordered by key.
-/

namespace Winidjango

/-- Version specifier in a dependency mapping: either a plain string such
as `"*"`, or a nested table of string options (the `str | dict[str, str]`
value type of `get_standard_dev_dependencies`). -/
inductive VersionSpec where
  | str : String → VersionSpec
  | table : List (String × String) → VersionSpec
deriving DecidableEq, Repr

/-- A Python `dict[str, str | dict[str, str]]` as an insertion-ordered
association list. -/
abbrev DepMap := List (String × VersionSpec)

/-- Keys of a dependency mapping, in entry order (Python `list(d.keys())`). -/
def dictKeys (d : DepMap) : List String :=
  d.map Prod.fst

/-- Python `d[k] = v` on a dict: overwrite the value of an existing key in
place, otherwise append the new entry at the end. -/
def dictSet (d : DepMap) (k : String) (v : VersionSpec) : DepMap :=
  match d with
  | [] => [(k, v)]
  | (k', v') :: rest => if k' = k then (k, v) :: rest else (k', v') :: dictSet rest k v

/-- Python `d[k]` / `d.get(k)` on a dict: the value at the first entry whose
key is `k`, if any. -/
def dictLookup (k : String) : DepMap → Option VersionSpec
  | [] => none
  | (k', v) :: rest => if k' = k then some v else dictLookup k rest

/-- Python `<` on strings: lexicographic comparison of the code-point
sequences, as an executable Boolean. -/
def keyLt (a b : String) : Bool :=
  decide (a.data < b.data)

/-- Insert one entry into a list of entries already ordered by key,
keeping the order (helper for the embedding of Python `sorted`). -/
def insertByKey (p : String × VersionSpec) : DepMap → DepMap
  | [] => [p]
  | q :: qs => if keyLt p.1 q.1 then p :: q :: qs else q :: insertByKey p qs

/-- Python `sorted(d.items())` on a dict (whose keys are unique, so the
comparison never goes past the key): the entries ordered by key ascending. -/
def sortByKey : DepMap → DepMap
  | [] => []
  | p :: ps => insertByKey p (sortByKey ps)

/-- Embedding of `PyprojectConfigFile.get_standard_dev_dependencies`
(src/winidjango/dev/configs/configs.py): take the parent's mapping, set
`"django-stubs"` and `"pytest-django"` to `"*"`, and return the entries
sorted by key. -/
def PyprojectConfigFile.get_standard_dev_dependencies (parent : DepMap) : DepMap :=
  sortByKey (dictSet (dictSet parent "django-stubs" (VersionSpec.str "*"))
    "pytest-django" (VersionSpec.str "*"))

/-- Embedding of `Pyrigger.get_dev_dependencies`
(src/winidjango/rig/tools/tools.py): the parent's list with
`"django-stubs"` appended. -/
def Pyrigger.get_dev_dependencies (parent : List String) : List String :=
  parent ++ ["django-stubs"]

/-- Embedding of `ProjectTester.get_dev_dependencies`
(src/winidjango/rig/tools/tools.py): the parent's list with
`"pytest-django"` appended. -/
def ProjectTester.get_dev_dependencies (parent : List String) : List String :=
  parent ++ ["pytest-django"]

/-- Modelled from the spec: the instance-level variant B
`Pyrigger.dev_dependencies(self)` from a revision of `tools.py` not present
under src/; per spec §4.3 it returns `parent.dev_dependencies() +
[fixed_literal]` with the same literal `"django-stubs"` as variant A. -/
def Pyrigger.dev_dependencies (parent : List String) : List String :=
  parent ++ ["django-stubs"]

/-- Modelled from the spec: the instance-level variant B
`ProjectTester.dev_dependencies(self)` from a revision of `tools.py` not
present under src/; per spec §4.3 it returns `parent.dev_dependencies() +
[fixed_literal]` with the same literal `"pytest-django"` as variant A. -/
def ProjectTester.dev_dependencies (parent : List String) : List String :=
  parent ++ ["pytest-django"]

/-- Fallible view of `Pyrigger.get_dev_dependencies`: the method first
calls the parent, so a parent failure propagates unchanged, and the list
construction after a successful parent call cannot fail. -/
def Pyrigger.get_dev_dependenciesE {E : Type} (parent : Except E (List String)) :
    Except E (List String) :=
  match parent with
  | Except.error e => Except.error e
  | Except.ok deps => Except.ok (deps ++ ["django-stubs"])

/-- Fallible view of `ProjectTester.get_dev_dependencies`: a parent
failure propagates unchanged, and the append after a successful parent
call cannot fail. -/
def ProjectTester.get_dev_dependenciesE {E : Type} (parent : Except E (List String)) :
    Except E (List String) :=
  match parent with
  | Except.error e => Except.error e
  | Except.ok deps => Except.ok (deps ++ ["pytest-django"])

/-- Fallible view of `PyprojectConfigFile.get_standard_dev_dependencies`:
a parent failure propagates unchanged, and the two dict writes and the
sort after a successful parent call cannot fail. -/
def PyprojectConfigFile.get_standard_dev_dependenciesE {E : Type}
    (parent : Except E DepMap) : Except E DepMap :=
  match parent with
  | Except.error e => Except.error e
  | Except.ok deps => Except.ok (PyprojectConfigFile.get_standard_dev_dependencies deps)

/-- The minimal Django settings installed by the winidjango bootstrap:
an in-memory sqlite default database and the `tests` app
(src/winidjango/__init__.py). -/
structure DjangoSettings where
  databases : List (String × List (String × String))
  installedApps : List String
deriving DecidableEq, Repr

/-- The concrete settings object `settings.configure(...)` receives in
src/winidjango/__init__.py. -/
def minimalDjangoSettings : DjangoSettings :=
  { databases := [("default", [("ENGINE", "django.db.backends.sqlite3"),
      ("NAME", ":memory:")])]
  , installedApps := ["tests"] }

/-- Modelled from the spec and Django's documented behaviour of
`settings.configure`: it installs the given settings when none are
configured, and raises if called on an already-configured settings
object. -/
def settingsConfigure (cur : Option DjangoSettings) (new : DjangoSettings) :
    Except String (Option DjangoSettings) :=
  match cur with
  | some _ => Except.error "Settings already configured."
  | none => Except.ok (some new)

/-- Embedding of the module bootstrap in src/winidjango/__init__.py: if
the settings object is not yet configured, configure the minimal
settings; otherwise leave the settings untouched. Returns the resulting
global settings state. -/
def bootstrap (cur : Option DjangoSettings) : Except String (Option DjangoSettings) :=
  if cur.isSome then Except.ok cur
  else settingsConfigure cur minimalDjangoSettings

/-! Helper lemmas about the dict embedding. -/

/-- `insertByKey` produces a permutation of consing the entry. -/
theorem insertByKey_perm (p : String × VersionSpec) (l : DepMap) :
    List.Perm (insertByKey p l) (p :: l) := by
  induction l with
  | nil => simp [insertByKey]
  | cons q qs ih =>
    by_cases h : keyLt p.1 q.1 = true
    · simp [insertByKey, h]
    · simp only [insertByKey, h, if_false]
      exact (List.Perm.cons q ih).trans (List.Perm.swap p q qs)

/-- `sortByKey` produces a permutation of its input. -/
theorem sortByKey_perm (l : DepMap) : List.Perm (sortByKey l) l := by
  induction l with
  | nil => simp [sortByKey]
  | cons p ps ih =>
    exact (insertByKey_perm p (sortByKey ps)).trans (List.Perm.cons p ih)

/-- The Boolean key comparison agrees with the string order. -/
theorem keyLt_iff (a b : String) : keyLt a b = true ↔ a < b := by
  unfold keyLt
  rw [decide_eq_true_iff]
  exact Iff.symm String.lt_iff_toList_lt

/-- Entrywise key order is preserved by `insertByKey`. -/
theorem insertByKey_sorted (p : String × VersionSpec) (l : DepMap)
    (h : l.Pairwise (fun a b => a.1 ≤ b.1)) :
    (insertByKey p l).Pairwise (fun a b => a.1 ≤ b.1) := by
  induction l with
  | nil => simp [insertByKey]
  | cons q qs ih =>
    rcases List.pairwise_cons.mp h with ⟨hq, hqs⟩
    by_cases hlt : keyLt p.1 q.1 = true
    · have hlt2 : p.1 < q.1 := (keyLt_iff p.1 q.1).mp hlt
      simp only [insertByKey, hlt, if_true]
      refine List.pairwise_cons.mpr ⟨?_, h⟩
      intro b hb
      rcases List.mem_cons.mp hb with rfl | hb2
      · exact le_of_lt hlt2
      · exact le_trans (le_of_lt hlt2) (hq b hb2)
    · have hle : q.1 ≤ p.1 := le_of_not_lt (fun hc => hlt ((keyLt_iff p.1 q.1).mpr hc))
      simp only [insertByKey, hlt, if_false]
      refine List.pairwise_cons.mpr ⟨?_, ih hqs⟩
      intro b hb
      have hmem := (insertByKey_perm p qs).mem_iff.mp hb
      rcases List.mem_cons.mp hmem with rfl | hb2
      · exact hle
      · exact hq b hb2

/-- `sortByKey` returns entries whose keys ascend. -/
theorem sortByKey_sorted (l : DepMap) :
    (sortByKey l).Pairwise (fun a b => a.1 ≤ b.1) := by
  induction l with
  | nil => simp [sortByKey]
  | cons p ps ih => exact insertByKey_sorted p (sortByKey ps) ih

/-- Membership in the keys of a dict after a write. -/
theorem mem_dictKeys_dictSet (d : DepMap) (k a : String) (v : VersionSpec) :
    a ∈ dictKeys (dictSet d k v) ↔ a ∈ dictKeys d ∨ a = k := by
  induction d with
  | nil => simp [dictSet, dictKeys]
  | cons q qs ih =>
    obtain ⟨k', v'⟩ := q
    by_cases h : k' = k
    · subst h
      simp only [dictSet, if_true, dictKeys, List.map_cons, List.mem_cons]
      tauto
    · simp only [dictSet, h, if_false, dictKeys, List.map_cons, List.mem_cons]
      simp only [dictKeys] at ih
      rw [ih]
      tauto

/-- Writing a key makes it the key's value under lookup. -/
theorem dictLookup_dictSet_self (d : DepMap) (k : String) (v : VersionSpec) :
    dictLookup k (dictSet d k v) = some v := by
  induction d with
  | nil => simp [dictSet, dictLookup]
  | cons q qs ih =>
    obtain ⟨k', v'⟩ := q
    by_cases h : k' = k
    · simp [dictSet, h, dictLookup]
    · simp [dictSet, h, dictLookup, ih]

/-- Writing one key leaves every other key's lookup unchanged. -/
theorem dictLookup_dictSet_other (d : DepMap) (k a : String) (v : VersionSpec)
    (hne : a ≠ k) : dictLookup a (dictSet d k v) = dictLookup a d := by
  induction d with
  | nil => simp [dictSet, dictLookup, Ne.symm hne]
  | cons q qs ih =>
    obtain ⟨k', v'⟩ := q
    by_cases h : k' = k
    · subst h
      simp [dictSet, dictLookup, Ne.symm hne]
    · by_cases hk : k' = a
      · subst hk
        simp [dictSet, h, dictLookup, hne]
      · simp [dictSet, h, dictLookup, hk, ih]

/-- Writing a key preserves uniqueness of the keys. -/
theorem dictSet_nodupKeys (d : DepMap) (k : String) (v : VersionSpec)
    (nd : (dictKeys d).Nodup) : (dictKeys (dictSet d k v)).Nodup := by
  induction d with
  | nil => simp [dictSet, dictKeys]
  | cons q qs ih =>
    obtain ⟨k', v'⟩ := q
    simp only [dictKeys, List.map_cons, List.nodup_cons] at nd
    by_cases h : k' = k
    · subst h
      simp only [dictSet, if_true, dictKeys, List.map_cons, List.nodup_cons]
      exact nd
    · simp only [dictSet, h, if_false, dictKeys, List.map_cons, List.nodup_cons]
      refine ⟨?_, ih nd.2⟩
      intro hmem
      rcases (mem_dictKeys_dictSet qs k k' v).mp hmem with hm | hm
      · exact nd.1 hm
      · exact h hm

/-- Lookup in a dict with unique keys is invariant under permutation of
the entries. -/
theorem dictLookup_eq_of_perm (a : String) (l₁ l₂ : DepMap) (h : List.Perm l₁ l₂) :
    (dictKeys l₁).Nodup → dictLookup a l₁ = dictLookup a l₂ := by
  induction h with
  | nil => intro _; rfl
  | cons p hp ih =>
    intro nd
    obtain ⟨k', v'⟩ := p
    simp only [dictKeys, List.map_cons, List.nodup_cons] at nd
    simp only [dictLookup]
    by_cases hk : k' = a
    · simp [hk]
    · simp only [hk, if_false]
      exact ih nd.2
  | swap x y l =>
    intro nd
    obtain ⟨kx, vx⟩ := x
    obtain ⟨ky, vy⟩ := y
    simp only [dictKeys, List.map_cons, List.nodup_cons, List.mem_cons] at nd
    by_cases hx : kx = a <;> by_cases hy : ky = a
    · exact absurd (Or.inl (hy.trans hx.symm)) nd.1
    · simp [dictLookup, hx, hy]
    · simp [dictLookup, hx, hy]
    · simp [dictLookup, hx, hy]
  | trans h₁ h₂ ih₁ ih₂ =>
    intro nd
    have nd₂ := (h₁.map Prod.fst).nodup nd
    exact (ih₁ nd).trans (ih₂ nd₂)

/-- Membership in the keys is invariant under permutation of the entries. -/
theorem mem_dictKeys_of_perm (a : String) (l₁ l₂ : DepMap) (h : List.Perm l₁ l₂) :
    a ∈ dictKeys l₁ ↔ a ∈ dictKeys l₂ :=
  (h.map Prod.fst).mem_iff

/-! Claim theorems. -/

/-- C1: for every parent result, `Pyrigger.get_dev_dependencies` and
`ProjectTester.get_dev_dependencies` return the parent's list with the
provider's fixed literal appended at the end, so the length grows by one,
the last element is the literal, and an occurrence of the literal already
in the parent's list is not deduplicated. -/
theorem get_dev_dependencies_appends_literal (parent : List String) :
    Pyrigger.get_dev_dependencies parent = parent ++ ["django-stubs"] ∧
    ProjectTester.get_dev_dependencies parent = parent ++ ["pytest-django"] ∧
    (Pyrigger.get_dev_dependencies parent).length = parent.length + 1 ∧
    (ProjectTester.get_dev_dependencies parent).length = parent.length + 1 ∧
    (Pyrigger.get_dev_dependencies parent).getLast? = some "django-stubs" ∧
    (ProjectTester.get_dev_dependencies parent).getLast? = some "pytest-django" ∧
    (Pyrigger.get_dev_dependencies parent).count "django-stubs" =
      parent.count "django-stubs" + 1 ∧
    (ProjectTester.get_dev_dependencies parent).count "pytest-django" =
      parent.count "pytest-django" + 1 := by
  refine ⟨rfl, rfl, ?_, ?_, ?_, ?_, ?_, ?_⟩ <;>
    simp [Pyrigger.get_dev_dependencies, ProjectTester.get_dev_dependencies]

/-- C2: with a parent mapping `{"pytest": "*"}`,
`PyprojectConfigFile.get_standard_dev_dependencies` returns exactly
`{"django-stubs": "*", "pytest": "*", "pytest-django": "*"}` in sorted
key order. -/
theorem get_standard_dev_dependencies_concrete :
    PyprojectConfigFile.get_standard_dev_dependencies [("pytest", VersionSpec.str "*")] =
      [("django-stubs", VersionSpec.str "*"), ("pytest", VersionSpec.str "*"),
        ("pytest-django", VersionSpec.str "*")] := by
  rfl

/-- C3: for every parent mapping, the keys of the mapping returned by
`PyprojectConfigFile.get_standard_dev_dependencies` are in ascending
sorted order. -/
theorem get_standard_dev_dependencies_keys_sorted (parent : DepMap) :
    List.Sorted (· ≤ ·)
      (dictKeys (PyprojectConfigFile.get_standard_dev_dependencies parent)) := by
  have h := sortByKey_sorted (dictSet (dictSet parent "django-stubs" (VersionSpec.str "*"))
    "pytest-django" (VersionSpec.str "*"))
  exact List.pairwise_map.mpr h

/-- C4: for every parent mapping with unique keys and every key other
than the two fixed keys, `PyprojectConfigFile.get_standard_dev_dependencies`
returns a mapping whose value at that key equals the parent's value: no
pre-existing key other than the two fixed ones is removed or overwritten. -/
theorem get_standard_dev_dependencies_preserves_other_keys (parent : DepMap)
    (k : String) (nd : (dictKeys parent).Nodup)
    (h1 : k ≠ "django-stubs") (h2 : k ≠ "pytest-django") :
    dictLookup k (PyprojectConfigFile.get_standard_dev_dependencies parent) =
      dictLookup k parent := by
  have nd1 := dictSet_nodupKeys parent "django-stubs" (VersionSpec.str "*") nd
  have nd2 := dictSet_nodupKeys (dictSet parent "django-stubs" (VersionSpec.str "*"))
    "pytest-django" (VersionSpec.str "*") nd1
  have hperm := sortByKey_perm (dictSet (dictSet parent "django-stubs" (VersionSpec.str "*"))
    "pytest-django" (VersionSpec.str "*"))
  have ndsort := ((hperm.map Prod.fst).symm).nodup nd2
  have hsort := dictLookup_eq_of_perm k _ _ hperm ndsort
  unfold PyprojectConfigFile.get_standard_dev_dependencies
  rw [hsort, dictLookup_dictSet_other _ _ _ _ h2, dictLookup_dictSet_other _ _ _ _ h1]

/-- Witness for C4 at the concrete parent `{"pytest": "*"}` and key
`"pytest"`. -/
theorem get_standard_dev_dependencies_preserves_other_keys_witness :
    (dictKeys [("pytest", VersionSpec.str "*")]).Nodup ∧
    ("pytest" : String) ≠ "django-stubs" ∧ ("pytest" : String) ≠ "pytest-django" ∧
    dictLookup "pytest"
      (PyprojectConfigFile.get_standard_dev_dependencies [("pytest", VersionSpec.str "*")]) =
      dictLookup "pytest" [("pytest", VersionSpec.str "*")] :=
  ⟨by decide, by decide, by decide,
    get_standard_dev_dependencies_preserves_other_keys [("pytest", VersionSpec.str "*")]
      "pytest" (by decide) (by decide) (by decide)⟩

/-- C5: for every parent mapping, the mapping returned by
`PyprojectConfigFile.get_standard_dev_dependencies` contains the keys
`"django-stubs"` and `"pytest-django"`. -/
theorem get_standard_dev_dependencies_contains_fixed_keys (parent : DepMap) :
    "django-stubs" ∈ dictKeys (PyprojectConfigFile.get_standard_dev_dependencies parent) ∧
    "pytest-django" ∈ dictKeys (PyprojectConfigFile.get_standard_dev_dependencies parent) := by
  have hperm := sortByKey_perm (dictSet (dictSet parent "django-stubs" (VersionSpec.str "*"))
    "pytest-django" (VersionSpec.str "*"))
  constructor
  · refine (mem_dictKeys_of_perm _ _ _ hperm).mpr ?_
    refine (mem_dictKeys_dictSet _ _ _ _).mpr (Or.inl ?_)
    exact (mem_dictKeys_dictSet _ _ _ _).mpr (Or.inr rfl)
  · exact (mem_dictKeys_of_perm _ _ _ hperm).mpr
      ((mem_dictKeys_dictSet _ _ _ _).mpr (Or.inr rfl))

/-- C6: with a parent instance-level `dev_dependencies()` returning
`["pytest"]`, `Pyrigger().dev_dependencies()` returns
`["pytest", "django-stubs"]` and `ProjectTester().dev_dependencies()`
returns `["pytest", "pytest-django"]` (instance-level variant modelled
from the spec). -/
theorem dev_dependencies_concrete :
    Pyrigger.dev_dependencies ["pytest"] = ["pytest", "django-stubs"] ∧
    ProjectTester.dev_dependencies ["pytest"] = ["pytest", "pytest-django"] :=
  ⟨rfl, rfl⟩

/-- C7: the dependency-list providers are deterministic functions of the
parent's result: two calls seeing the same parent result return the same
list. -/
theorem get_dev_dependencies_deterministic (p₁ p₂ : List String) (h : p₁ = p₂) :
    Pyrigger.get_dev_dependencies p₁ = Pyrigger.get_dev_dependencies p₂ ∧
    ProjectTester.get_dev_dependencies p₁ = ProjectTester.get_dev_dependencies p₂ := by
  subst h
  exact ⟨rfl, rfl⟩

/-- Witness for C7 at the concrete parent result `["pytest"]`. -/
theorem get_dev_dependencies_deterministic_witness :
    (["pytest"] : List String) = ["pytest"] ∧
    (Pyrigger.get_dev_dependencies ["pytest"] = Pyrigger.get_dev_dependencies ["pytest"] ∧
      ProjectTester.get_dev_dependencies ["pytest"] =
        ProjectTester.get_dev_dependencies ["pytest"]) :=
  ⟨rfl, get_dev_dependencies_deterministic ["pytest"] ["pytest"] rfl⟩

/-- C8: every accessor is exception-transparent: a parent failure is
returned unchanged, and when the parent succeeds the accessor succeeds. -/
theorem accessors_exception_transparent (E : Type) (e : E) (deps : List String)
    (m : DepMap) :
    Pyrigger.get_dev_dependenciesE (Except.error e) =
      (Except.error e : Except E (List String)) ∧
    ProjectTester.get_dev_dependenciesE (Except.error e) =
      (Except.error e : Except E (List String)) ∧
    PyprojectConfigFile.get_standard_dev_dependenciesE (Except.error e) =
      (Except.error e : Except E DepMap) ∧
    (Pyrigger.get_dev_dependenciesE (Except.ok deps) : Except E (List String)).isOk = true ∧
    (ProjectTester.get_dev_dependenciesE (Except.ok deps) : Except E (List String)).isOk = true ∧
    (PyprojectConfigFile.get_standard_dev_dependenciesE (Except.ok m) : Except E DepMap).isOk
      = true :=
  ⟨rfl, rfl, rfl, rfl, rfl, rfl⟩

/-- C9: the bootstrap is idempotent on the settings state: it never fails,
it leaves an already-configured settings object unchanged, and running it
twice equals running it once. -/
theorem bootstrap_idempotent (s : Option DjangoSettings) :
    (bootstrap s).isOk = true ∧
    (∀ cfg : DjangoSettings, bootstrap (some cfg) = Except.ok (some cfg)) ∧
    (bootstrap s).bind bootstrap = bootstrap s := by
  refine ⟨?_, ?_, ?_⟩
  · cases s <;> rfl
  · intro cfg
    rfl
  · cases s <;> rfl

/-- C10: for every parent mapping with unique keys, the result of
`PyprojectConfigFile.get_standard_dev_dependencies` maps the two fixed
keys to `"*"` (overwriting any value the parent had there), and its key
set is the parent's key set united with the two fixed keys. -/
theorem get_standard_dev_dependencies_overwrites_fixed_keys (parent : DepMap)
    (nd : (dictKeys parent).Nodup) :
    dictLookup "django-stubs" (PyprojectConfigFile.get_standard_dev_dependencies parent) =
      some (VersionSpec.str "*") ∧
    dictLookup "pytest-django" (PyprojectConfigFile.get_standard_dev_dependencies parent) =
      some (VersionSpec.str "*") ∧
    ∀ a : String,
      a ∈ dictKeys (PyprojectConfigFile.get_standard_dev_dependencies parent) ↔
        a ∈ dictKeys parent ∨ a = "django-stubs" ∨ a = "pytest-django" := by
  have nd1 := dictSet_nodupKeys parent "django-stubs" (VersionSpec.str "*") nd
  have nd2 := dictSet_nodupKeys (dictSet parent "django-stubs" (VersionSpec.str "*"))
    "pytest-django" (VersionSpec.str "*") nd1
  have hperm := sortByKey_perm (dictSet (dictSet parent "django-stubs" (VersionSpec.str "*"))
    "pytest-django" (VersionSpec.str "*"))
  have ndsort := ((hperm.map Prod.fst).symm).nodup nd2
  refine ⟨?_, ?_, ?_⟩
  · rw [PyprojectConfigFile.get_standard_dev_dependencies,
      dictLookup_eq_of_perm _ _ _ hperm ndsort,
      dictLookup_dictSet_other _ _ _ _ (by decide)]
    exact dictLookup_dictSet_self parent "django-stubs" (VersionSpec.str "*")
  · rw [PyprojectConfigFile.get_standard_dev_dependencies,
      dictLookup_eq_of_perm _ _ _ hperm ndsort]
    exact dictLookup_dictSet_self _ "pytest-django" (VersionSpec.str "*")
  · intro a
    rw [PyprojectConfigFile.get_standard_dev_dependencies,
      mem_dictKeys_of_perm _ _ _ hperm, mem_dictKeys_dictSet, mem_dictKeys_dictSet]
    tauto

/-- Witness for C10 at a parent that already maps `"django-stubs"` to a
different version, exercising the overwrite. -/
theorem get_standard_dev_dependencies_overwrites_fixed_keys_witness :
    (dictKeys [("django-stubs", VersionSpec.str "1.2")]).Nodup ∧
    dictLookup "django-stubs"
      (PyprojectConfigFile.get_standard_dev_dependencies
        [("django-stubs", VersionSpec.str "1.2")]) = some (VersionSpec.str "*") :=
  ⟨by decide,
    (get_standard_dev_dependencies_overwrites_fixed_keys
      [("django-stubs", VersionSpec.str "1.2")] (by decide)).1⟩

end Winidjango
